import Mathlib

/-!
Verification of the plio ISIS control-network codec
(`plio/io/io_controlnetwork.py`) against its design specification.

The development shallowly embeds the file's data model and operations:

* pure Python functions become Lean functions;
* the pandas dataframe becomes a list of flat rows (`Row`) together with a
  record of column-presence flags (`Cols`), since column presence is a
  frame-level property in pandas;
* Python floats are modelled as `Rat` (exact arithmetic; the 0.5 pixel
  offsets are exact in this model);
* protobuf messages become Lean structures whose `Option` fields model
  proto2 optional-field presence; the external protobuf byte
  serializer/deserializer pair (out of scope per the spec) is treated as a
  faithful codec, so encode/decode claims are settled at message level;
* fallible Python code returns `Except`.

Python's `warnings.warn` calls are modelled as an explicit warning list
returned alongside results.
-/

/-- Mirror of the `MeasureMessageType` IntEnum (io_controlnetwork.py lines
36-45): the closed enumeration of measure-log data types. -/
inductive MeasureMessageType where
  | GoodnessOfFit
  | MinimumPixelZScore
  | MaximumPixelZScore
  | PixelShift
  | WholePixelCorrelation
  | SubPixelCorrelation
deriving DecidableEq, Repr

namespace MeasureMessageType

/-- The integer value of each enum member (source lines 40-45). -/
def val : MeasureMessageType → Int
  | .GoodnessOfFit => 2
  | .MinimumPixelZScore => 3
  | .MaximumPixelZScore => 4
  | .PixelShift => 5
  | .WholePixelCorrelation => 6
  | .SubPixelCorrelation => 7

/-- Python `MeasureMessageType(n)`: enum lookup by value; `none` models the
`ValueError` raised for an unmapped code. -/
def ofVal (n : Int) : Option MeasureMessageType :=
  if n = 2 then some .GoodnessOfFit
  else if n = 3 then some .MinimumPixelZScore
  else if n = 4 then some .MaximumPixelZScore
  else if n = 5 then some .PixelShift
  else if n = 6 then some .WholePixelCorrelation
  else if n = 7 then some .SubPixelCorrelation
  else none

/-- Python `MeasureMessageType[s]`: enum lookup by member name; `none`
models the `KeyError` raised for an unknown name. -/
def ofName (s : String) : Option MeasureMessageType :=
  if s = "GoodnessOfFit" then some .GoodnessOfFit
  else if s = "MinimumPixelZScore" then some .MinimumPixelZScore
  else if s = "MaximumPixelZScore" then some .MaximumPixelZScore
  else if s = "PixelShift" then some .PixelShift
  else if s = "WholePixelCorrelation" then some .WholePixelCorrelation
  else if s = "SubPixelCorrelation" then some .SubPixelCorrelation
  else none

end MeasureMessageType

/-- A Python runtime value as far as `MeasureLog.__init__` inspects it:
`isinstance(value, (float, int))` accepts ints, floats and bools (bool is a
subtype of int in Python) and rejects everything else. -/
inductive PyVal where
  | pint (n : Int)
  | pfloat (q : Rat)
  | pbool (b : Bool)
  | pstr (s : String)
  | pnone
deriving DecidableEq, Repr

/-- Python's `isinstance(value, (float, int))` check (source line 68). -/
def PyVal.isNumeric : PyVal → Bool
  | .pint _ => true
  | .pfloat _ => true
  | .pbool _ => true
  | .pstr _ => false
  | .pnone => false

/-- Numeric coercion applied when a `PyVal` is stored into a protobuf
double field. -/
def PyVal.toQ : PyVal → Rat
  | .pint n => (n : Rat)
  | .pfloat q => q
  | .pbool b => if b then 1 else 0
  | .pstr _ => 0
  | .pnone => 0

/-- The Python exception kinds raised by the constructor and read paths. -/
inductive PyErr where
  | valueError
  | keyError
  | typeError
deriving DecidableEq, Repr

/-- A successfully constructed `MeasureLog` object (source lines 47-70). -/
structure MeasureLog where
  messagetype : MeasureMessageType
  value : PyVal
deriving DecidableEq, Repr

/-- `MeasureLog.__init__` (source lines 49-70): the message type argument is
either an int (lookup by value, `ValueError` on failure) or a string
(lookup by name, `KeyError` on failure); afterwards a non-numeric value
raises `TypeError`. -/
def MeasureLog.make (messagetype : Int ⊕ String) (value : PyVal) :
    Except PyErr MeasureLog := do
  let mt ← match messagetype with
    | .inl n =>
      match MeasureMessageType.ofVal n with
      | some mt => pure mt
      | none => throw .valueError
    | .inr s =>
      match MeasureMessageType.ofName s with
      | some mt => pure mt
      | none => throw .keyError
  if value.isNumeric then
    pure { messagetype := mt, value := value }
  else
    throw .typeError

/-- The protobuf `MeasureLogData` sub-message populated by
`MeasureLog.to_protobuf` (source lines 75-95). -/
structure LogSpec where
  doubleDataType : Int
  doubleDataValue : Rat
deriving DecidableEq, Repr

/-- `MeasureLog.to_protobuf` (source lines 75-95): stores the numeric value
into `doubleDataValue` and the enum ordinal into `doubleDataType`. -/
def MeasureLog.to_protobuf (lg : MeasureLog) : LogSpec :=
  { doubleDataType := lg.messagetype.val, doubleDataValue := lg.value.toQ }

/-- `MeasureLog.from_protobuf` (source lines 97-99): reconstructs via the
by-value constructor; the wire value is a protobuf double, hence a float. -/
def MeasureLog.from_protobuf (spec : LogSpec) : Except PyErr MeasureLog :=
  MeasureLog.make (.inl spec.doubleDataType) (.pfloat spec.doubleDataValue)

/-- One flat dataframe row: one control measure together with its point's
attributes, using the dataframe (mangled) column names from
`point_field_map` / `measure_field_map` (source lines 166-183).

Modelled from the spec: the protobuf field tables
(`ControlNetFileV0002_pb2` and friends) are not part of the given source,
so the point/measure attribute set follows the spec's data model (section
3): point id, type, reference index, chooser name, timestamp, edit-lock /
ignore / jigsaw-rejected flags, a-priori and adjusted covariance, and per
measure: serial number, type, chooser name, timestamp, flags, sample/line,
a-priori sample/line, a sigma as a representative plain numeric field, and
the measure log. -/
structure Row where
  pid : String
  pointType : Int
  referenceIndex : Int
  pointChoosername : String
  pointDatetime : String
  pointEditLock : Bool
  pointIgnore : Bool
  pointJigsawRejected : Bool
  aprioriCovar : List Rat
  adjustedCovar : List Rat
  serialnumber : String
  measureType : Int
  measureChoosername : String
  measureDatetime : String
  measureEditLock : Bool
  measureIgnore : Bool
  measureJigsawRejected : Bool
  sample : Rat
  line : Rat
  apriorisample : Rat
  aprioriline : Rat
  samplesigma : Rat
  measureLog : List MeasureLog
deriving DecidableEq, Repr

/-- Column presence in the dataframe handed to `create_points`.  In pandas,
`df_attr in g.columns` is a property of the whole frame, so it is recorded
here once rather than per row.  The columns `id`, `pointType`, `sample` and
`line` are accessed unconditionally by `create_points` (source lines 343,
344, 388, 389) and so are always present. -/
structure Cols where
  referenceIndexCol : Bool
  pointChoosernameCol : Bool
  pointDatetimeCol : Bool
  pointEditLockCol : Bool
  pointIgnoreCol : Bool
  pointJigsawRejectedCol : Bool
  pointLogCol : Bool
  aprioriCovarCol : Bool
  adjustedCovarCol : Bool
  serialnumberCol : Bool
  measureTypeCol : Bool
  measureChoosernameCol : Bool
  measureDatetimeCol : Bool
  measureEditLockCol : Bool
  measureIgnoreCol : Bool
  measureJigsawRejectedCol : Bool
  aprioriSampleCol : Bool
  aprioriLineCol : Bool
  samplesigmaCol : Bool
  measureLogCol : Bool
deriving DecidableEq, Repr

/-- The frame shape produced by a full read: every column present. -/
def allCols : Cols :=
  { referenceIndexCol := true, pointChoosernameCol := true,
    pointDatetimeCol := true, pointEditLockCol := true,
    pointIgnoreCol := true, pointJigsawRejectedCol := true,
    pointLogCol := false, aprioriCovarCol := true, adjustedCovarCol := true,
    serialnumberCol := true, measureTypeCol := true,
    measureChoosernameCol := true, measureDatetimeCol := true,
    measureEditLockCol := true, measureIgnoreCol := true,
    measureJigsawRejectedCol := true, aprioriSampleCol := true,
    aprioriLineCol := true, samplesigmaCol := true, measureLogCol := true }

/-- One control measure of the in-memory hierarchy (spec section 3,
`ControlMeasure`), carrying the measure-level columns of `Row`. -/
structure Measure where
  serialnumber : String
  measureType : Int
  measureChoosername : String
  measureDatetime : String
  measureEditLock : Bool
  measureIgnore : Bool
  measureJigsawRejected : Bool
  sample : Rat
  line : Rat
  apriorisample : Rat
  aprioriline : Rat
  samplesigma : Rat
  measureLog : List MeasureLog
deriving DecidableEq, Repr

/-- One control point of the in-memory hierarchy (spec section 3,
`ControlPoint`): point-level attributes plus its ordered measures. -/
structure Point where
  pid : String
  pointType : Int
  referenceIndex : Int
  pointChoosername : String
  pointDatetime : String
  pointEditLock : Bool
  pointIgnore : Bool
  pointJigsawRejected : Bool
  aprioriCovar : List Rat
  adjustedCovar : List Rat
  measures : List Measure
deriving DecidableEq, Repr

/-- The flat row for one measure of a point: point attributes repeated,
concatenated with the measure attributes (spec section 4.4, `flatten`; the
same row shape `IsisStore.read` assembles at source lines 247-250). -/
def rowOf (p : Point) (m : Measure) : Row :=
  { pid := p.pid, pointType := p.pointType,
    referenceIndex := p.referenceIndex,
    pointChoosername := p.pointChoosername,
    pointDatetime := p.pointDatetime,
    pointEditLock := p.pointEditLock,
    pointIgnore := p.pointIgnore,
    pointJigsawRejected := p.pointJigsawRejected,
    aprioriCovar := p.aprioriCovar, adjustedCovar := p.adjustedCovar,
    serialnumber := m.serialnumber, measureType := m.measureType,
    measureChoosername := m.measureChoosername,
    measureDatetime := m.measureDatetime,
    measureEditLock := m.measureEditLock,
    measureIgnore := m.measureIgnore,
    measureJigsawRejected := m.measureJigsawRejected,
    sample := m.sample, line := m.line,
    apriorisample := m.apriorisample, aprioriline := m.aprioriline,
    samplesigma := m.samplesigma, measureLog := m.measureLog }

/-- All rows of one point, one per measure, in measure order. -/
def flattenPoint (p : Point) : List Row := p.measures.map (rowOf p)

/-- Spec section 4.4 `flatten`: one row per measure, point order then
measure order within each point. -/
def flatten (pts : List Point) : List Row := (pts.map flattenPoint).flatten

/-- Lexicographic comparison of character lists by code point, the order
pandas uses when sorting string group keys. -/
def charsLt : List Char → List Char → Bool
  | [], [] => false
  | [], _ :: _ => true
  | _ :: _, [] => false
  | a :: as, b :: bs =>
    if a.toNat < b.toNat then true
    else if b.toNat < a.toNat then false
    else charsLt as bs

/-- String comparison used to model pandas' sorted group keys. -/
def strLt (a b : String) : Bool := charsLt a.data b.data

/-- Insert a key into a sorted duplicate-free key list, keeping it sorted
and duplicate-free. -/
def insertKey (k : String) : List String → List String
  | [] => [k]
  | x :: xs =>
    if k = x then x :: xs
    else if strLt k x then k :: x :: xs
    else x :: insertKey k xs

/-- The sorted list of distinct keys of a key list: pandas
`df.groupby(...)` iterates group keys in sorted order (its default
`sort=True`), not in first-occurrence order. -/
def sortedUniqueKeys (ks : List String) : List String :=
  ks.foldr insertKey []

/-- Model of `df.groupby('id')` as iterated by `create_points` (source line
331): the groups, keyed by point id, in sorted key order; each group keeps
its rows in original row order. -/
def groupby (rows : List Row) : List (String × List Row) :=
  (sortedUniqueKeys (rows.map Row.pid)).map
    (fun k => (k, rows.filter (fun r => r.pid == k)))

/-- `plio.utils.utils.xstr`, used by `_set_pid` (source lines 323-326).
Modelled from the spec: the helper is not under the given source tree; per
the spec an absent point-id prefix/suffix contributes the empty string. -/
def xstr : Option String → String
  | none => ""
  | some s => s

/-- The protobuf `ControlPointFileEntryV0002.Measure` message as populated
by `create_points` (source lines 372-393).  `Option` models proto2 field
presence; an unset optional field reads back as the proto default. -/
structure MeasureSpec where
  serialnumber : Option String
  measureType : Option Int
  choosername : Option String
  datetime : Option String
  editLock : Option Bool
  ignore : Option Bool
  jigsawRejected : Option Bool
  sample : Option Rat
  line : Option Rat
  apriorisample : Option Rat
  aprioriline : Option Rat
  samplesigma : Option Rat
  log : List LogSpec
deriving DecidableEq, Repr

/-- The protobuf `ControlPointFileEntryV0002` message as populated by
`create_points` (source lines 334-400). -/
structure PointSpec where
  id : Option String
  pointType : Option Int
  referenceIndex : Option Int
  chooserName : Option String
  datetime : Option String
  editLock : Option Bool
  ignore : Option Bool
  jigsawRejected : Option Bool
  aprioriCovar : List Rat
  adjustedCovar : List Rat
  measures : List MeasureSpec
deriving DecidableEq, Repr

/-- Non-fatal diagnostics emitted through `warnings.warn` during
`create_points`. -/
inductive Warning where
  | missingRefIndex (pid : String)
  | pointLogUnsupported (pid : String)
deriving DecidableEq, Repr

/-- The measure-encoding body of `create_points` (source lines 372-393):
one loop over the measure field table setting each field whose column is
present, followed by the unconditional pixel-origin conversion
`measure_spec.sample = m['sample'] + 0.5`, `measure_spec.line = m['line'] +
0.5` (lines 388-389) and, when the `apriorisample` column exists, the same
`+ 0.5` conversion of both a-priori coordinates (lines 390-392).

Domain caveat: line 392 reads `m['aprioriline']` guarded only by the
`'apriorisample' in g.columns` check, so a frame with an `apriorisample`
column but no `aprioriline` column makes the source raise `KeyError` and
abort `create_points`.  This total function does not model that crash:
it is faithful only for frames whose column set satisfies
`aprioriSampleCol → aprioriLineCol`, and every theorem quantifying over
arbitrary column sets carries that hypothesis. -/
def encodeMeasure (cols : Cols) (m : Row) : MeasureSpec :=
  { serialnumber := if cols.serialnumberCol then some m.serialnumber else none,
    measureType := if cols.measureTypeCol then some m.measureType else none,
    choosername :=
      if cols.measureChoosernameCol then some m.measureChoosername else none,
    datetime := if cols.measureDatetimeCol then some m.measureDatetime else none,
    editLock := if cols.measureEditLockCol then some m.measureEditLock else none,
    ignore := if cols.measureIgnoreCol then some m.measureIgnore else none,
    jigsawRejected :=
      if cols.measureJigsawRejectedCol then some m.measureJigsawRejected else none,
    -- the loop assigns the raw column values; lines 388-389 then overwrite
    -- both coordinates with the converted values, so the converted values
    -- are what the message carries
    sample := some (m.sample + 1/2),
    line := some (m.line + 1/2),
    apriorisample :=
      if cols.aprioriSampleCol then some (m.apriorisample + 1/2) else none,
    -- line 392 converts `aprioriline` under the `apriorisample` column
    -- check; with only the `aprioriline` column present the loop's raw
    -- assignment is what remains, and with `apriorisample` present but
    -- `aprioriline` absent the source raises KeyError (see the doc
    -- comment: such column sets are outside this model's domain)
    aprioriline :=
      if cols.aprioriSampleCol then some (m.aprioriline + 1/2)
      else if cols.aprioriLineCol then some m.aprioriline else none,
    samplesigma := if cols.samplesigmaCol then some m.samplesigma else none,
    log :=
      if cols.measureLogCol then m.measureLog.map MeasureLog.to_protobuf
      else [] }

/-- The point-encoding body of `create_points` for one group `(k, g)` of
`df.groupby('id')` (source lines 331-401).  Returns the populated point
message and the warnings emitted for this point.

Faithful details: `point_spec.id` is first set to the prefixed id
`_set_pid(i)` (line 343) but, because the groupby key column `id` is still
a column of `g`, the field loop re-assigns `point_spec.id =
str(reference_row['id'])` (line 369), so the raw id wins; the
`referenceIndex` assignment sits in a try/except that warns and defaults to
0 when the column is missing (lines 345-349); `pointLog` data is dropped
with a warning (lines 354-357); and both covariance branches extend
`point_spec.aprioriCovar` (line 364) — the `adjustedCovar` data is appended
to `aprioriCovar` and `adjustedCovar` itself is never populated.  The
`if arr:` guard skips empty arrays.  The loop walks the field table in
proto field order, `aprioriCovar` before `adjustedCovar`. -/
def encodePoint (cols : Cols) (pre suf : Option String) (k : String)
    (g : List Row) : PointSpec × List Warning :=
  match g with
  | [] =>
    -- a pandas groupby never yields an empty group; unreachable
    ({ id := none, pointType := none, referenceIndex := none,
       chooserName := none, datetime := none, editLock := none,
       ignore := none, jigsawRejected := none, aprioriCovar := [],
       adjustedCovar := [], measures := [] }, [])
  | r0 :: _ =>
    let pid0 := xstr pre ++ k ++ xstr suf
    let refIdx : Int := if cols.referenceIndexCol then r0.referenceIndex else 0
    let wsRef : List Warning :=
      if cols.referenceIndexCol then [] else [.missingRefIndex pid0]
    let wsLog : List Warning :=
      if cols.pointLogCol then [.pointLogUnsupported pid0] else []
    let covar : List Rat :=
      (if cols.aprioriCovarCol then
        (if r0.aprioriCovar.isEmpty then [] else r0.aprioriCovar) else [])
      ++
      (if cols.adjustedCovarCol then
        (if r0.adjustedCovar.isEmpty then [] else r0.adjustedCovar) else [])
    ({ id := some r0.pid,
       pointType := some r0.pointType,
       referenceIndex := some refIdx,
       chooserName :=
         if cols.pointChoosernameCol then some r0.pointChoosername else none,
       datetime :=
         if cols.pointDatetimeCol then some r0.pointDatetime else none,
       editLock :=
         if cols.pointEditLockCol then some r0.pointEditLock else none,
       ignore := if cols.pointIgnoreCol then some r0.pointIgnore else none,
       jigsawRejected :=
         if cols.pointJigsawRejectedCol then some r0.pointJigsawRejected
         else none,
       aprioriCovar := covar,
       adjustedCovar := [],
       measures := g.map (encodeMeasure cols) },
     wsRef ++ wsLog)

/-- `IsisStore.create_points` (source lines 307-402): group the frame by
point id and encode one point message per group; also collects all
warnings.  The external `SerializeToString` step is the out-of-scope
protobuf codec, so the result is the list of populated messages. -/
def create_points (cols : Cols) (pre suf : Option String)
    (rows : List Row) : List PointSpec × List Warning :=
  let gs := groupby rows
  ((gs.map fun kg => (encodePoint cols pre suf kg.1 kg.2).1),
   (gs.map fun kg => (encodePoint cols pre suf kg.1 kg.2).2).flatten)

/-- Sequential fallible mapping, short-circuiting on the first error: the
shape of every Python loop in `read` that converts a list and stops at the
first raised exception. -/
def exceptMapList {α β ε : Type} (f : α → Except ε β) : List α → Except ε (List β)
  | [] => pure []
  | a :: as => do
    let b ← f a
    let bs ← exceptMapList f as
    pure (b :: bs)

/-- The row-extraction step of `IsisStore.read` for one parsed point
message (source lines 247-250 / 268-272): one flat row per measure, point
columns then measure columns; a proto2 optional field that is unset reads
back as its type's default (`getattr` on an unset field), and the
`measureLog` column is converted to `MeasureLog` objects via
`from_protobuf` (line 289). -/
def decodeMeasureRow (cp : PointSpec) (ms : MeasureSpec) :
    Except PyErr Row := do
  let logs ← exceptMapList MeasureLog.from_protobuf ms.log
  pure { pid := cp.id.getD "",
           pointType := cp.pointType.getD 0,
           referenceIndex := cp.referenceIndex.getD 0,
           pointChoosername := cp.chooserName.getD "",
           pointDatetime := cp.datetime.getD "",
           pointEditLock := cp.editLock.getD false,
           pointIgnore := cp.ignore.getD false,
           pointJigsawRejected := cp.jigsawRejected.getD false,
           aprioriCovar := cp.aprioriCovar,
           adjustedCovar := cp.adjustedCovar,
           serialnumber := ms.serialnumber.getD "",
           measureType := ms.measureType.getD 0,
           measureChoosername := ms.choosername.getD "",
           measureDatetime := ms.datetime.getD "",
           measureEditLock := ms.editLock.getD false,
           measureIgnore := ms.ignore.getD false,
           measureJigsawRejected := ms.jigsawRejected.getD false,
           sample := ms.sample.getD 0,
           line := ms.line.getD 0,
           apriorisample := ms.apriorisample.getD 0,
           aprioriline := ms.aprioriline.getD 0,
           samplesigma := ms.samplesigma.getD 0,
           measureLog := logs }

/-- All flat rows of one parsed point message (source lines 247-250 /
268-272 with the line-289 log conversion). -/
def decodeRows (cp : PointSpec) : Except PyErr (List Row) :=
  exceptMapList (decodeMeasureRow cp) cp.measures

/-- The pixel-origin conversion applied by `read` to the assembled frame
(source lines 281-286): subtract 0.5 from `line` and `sample` and — since a
frame read from disk carries every proto field as a column — from
`aprioriline` and `apriorisample`.  Applied per row, which is what the
column-wise subtraction amounts to. -/
def adjustRow (r : Row) : Row :=
  { r with sample := r.sample - 1/2, line := r.line - 1/2,
           apriorisample := r.apriorisample - 1/2,
           aprioriline := r.aprioriline - 1/2 }

/-- The tail of `IsisStore.read` after the point messages are parsed:
flatten every point into rows, then apply the coordinate conversion
(source lines 276-289). -/
def readOfSpecs (specs : List PointSpec) : Except PyErr (List Row) := do
  let rows ← exceptMapList decodeRows specs
  pure (rows.flatten.map adjustRow)

/-- The module constant `HEADERSTARTBYTE = 65536` (source line 15). -/
def HEADERSTARTBYTE : Nat := 65536

/-- The four bytes of `struct.pack('I', n)`: a 4-byte unsigned
little-endian length field. -/
def le32 (n : Nat) : List Nat :=
  [n % 256, n / 256 % 256, n / 65536 % 256, n / 16777216 % 256]

/-- `struct.unpack('I', ...)[0]` applied to four bytes (source line 266). -/
def unle32 (b0 b1 b2 b3 : Nat) : Nat :=
  b0 + 256 * b1 + 65536 * b2 + 16777216 * b3

/-- The version-5 point-reading loop of `IsisStore.read` (source lines
263-274): while the running byte count is below `PointsBytes`, read a
4-byte little-endian length, read that many payload bytes, and advance the
count by `4 + message_size`.  Returns the extracted point buffers (each
then handed to the external protobuf parser) and the final byte count;
`none` models the exception raised when the stream runs short. -/
def readPoints5 (stream : List Nat) (byteCount pointsBytes : Nat) :
    Option (List (List Nat) × Nat) :=
  if byteCount < pointsBytes then
    match stream with
    | b0 :: b1 :: b2 :: b3 :: rest =>
      let msize := unle32 b0 b1 b2 b3
      if msize ≤ rest.length then
        match readPoints5 (rest.drop msize) (byteCount + 4 + msize) pointsBytes with
        | some (bufs, final) => some ((rest.take msize) :: bufs, final)
        | none => none
      else none
    | _ => none
  else
    some ([], byteCount)
termination_by stream.length
decreasing_by
  simp only [List.length_cons, List.length_drop]
  omega

/-- On-disk shape of a length-prefixed points region.  Modelled from the
spec: each point buffer is preceded by its own 4-byte unsigned
little-endian length field (spec section 4.3, length-prefixed framing). -/
def lengthPrefixedRegion (msgs : List (List Nat)) : List Nat :=
  (msgs.map fun m => le32 m.length ++ m).flatten

/-- The per-point `store.write(point, point_start_offset)` calls of
`to_isis` (source lines 147-149): each point's serialized buffer is written
at the running offset, which then advances by that point's size
(`point_sizes[i]`, protobuf's `ByteSize()`, i.e. the buffer length). -/
def pointWrites (off : Nat) : List (List Nat) → List (Nat × List Nat)
  | [] => []
  | m :: ms => (off, m) :: pointWrites (off + m.length) ms

/-- The full sequence of `(offset, data)` file writes performed by
`to_isis` (source lines 129-155): the serialized binary network header at
`HEADERSTARTBYTE` (line 144), then each point buffer at consecutive offsets
starting at `HEADERSTARTBYTE + buffer_header_size` (lines 146-149), and
finally the UTF-8 text header with `write`'s default `offset=0` (line
155).  The serialized header/point/text bytes themselves come from the
external protobuf and pvl encoders and are taken as inputs; the requested
schema version does not enter this write sequence at all — it is only
recorded inside the text header. -/
def toIsisWrites (bufferHeader : List Nat) (pointMessages : List (List Nat))
    (pvlBytes : List Nat) : List (Nat × List Nat) :=
  (HEADERSTARTBYTE, bufferHeader) ::
    (pointWrites (HEADERSTARTBYTE + bufferHeader.length) pointMessages ++
      [(0, pvlBytes)])

/-- The `ControlNetFileHeaderV0002` message populated by
`IsisStore.create_buffer_header` (source lines 404-442). -/
structure NetHeaderSpec where
  created : String
  lastModified : String
  networkId : String
  description : String
  targetName : String
  userName : String
  pointMessageSizes : List Nat
deriving DecidableEq, Repr

/-- `IsisStore.create_buffer_header` (source lines 404-442): fills the
version-2 binary network header, including the `pointMessageSizes` size
table. -/
def create_buffer_header (networkid targetname description username : String)
    (point_sizes : List Nat) (creation_date modified_date : String) :
    NetHeaderSpec :=
  { created := creation_date, lastModified := modified_date,
    networkId := networkid, description := description,
    targetName := targetname, userName := username,
    pointMessageSizes := point_sizes }

/-- The key/value content of the PVL text header built by
`IsisStore.create_pvl_header` (source lines 444-502); the actual UTF-8
rendering is the external pvl encoder. -/
structure PvlHeader where
  headerStartByte : Nat
  headerBytes : Nat
  pointsStartByte : Nat
  pointsBytes : Nat
  networkId : String
  targetName : String
  userName : String
  created : String
  lastModified : String
  description : String
  numberOfPoints : Nat
  numberOfMeasures : Nat
  version : Nat
deriving DecidableEq, Repr

/-- `IsisStore.create_pvl_header` (source lines 444-502).  Note the
recorded `HeaderStartByte` is the caller's `headerstartbyte` argument while
`PointsStartByte` is computed from the module constant `HEADERSTARTBYTE`
(line 477), the offset the writer actually used. -/
def create_pvl_header (version headerstartbyte : Nat)
    (networkid targetname description username : String)
    (buffer_header_size points_bytes : Nat)
    (creation_date modified_date : String)
    (npoints nmeasures : Nat) : PvlHeader :=
  { headerStartByte := headerstartbyte,
    headerBytes := buffer_header_size,
    pointsStartByte := HEADERSTARTBYTE + buffer_header_size,
    pointsBytes := points_bytes,
    networkId := networkid, targetName := targetname, userName := username,
    created := creation_date, lastModified := modified_date,
    description := description,
    numberOfPoints := npoints, numberOfMeasures := nmeasures,
    version := version }

/-- The scalar values `IsisStore.read` looks up in the parsed PVL text
header via `find_in_dict` (source lines 227-231, 265).  Modelled from the
spec: `find_in_dict` lives in `plio.utils.utils`, outside the given source;
per the spec's collaborator contract the text-header parser returns the
value for a key wherever it is nested, and a missing key yields no value
(`Option`). -/
structure PvlFields where
  headerStartByte : Option Nat
  headerBytes : Option Nat
  pointsStartByte : Option Nat
  pointsBytes : Option Nat
  version : Option Nat
deriving DecidableEq, Repr

/-- Abstract error taxonomy of a failed `read` (spec section 7): a header
key that is missing where the code needs it (`seek(None)` and friends)
surfaces as `malformedHeader`; an unrecognized schema version as
`unsupportedVersion`; a buffer that cannot be framed or parsed as
`malformedMessage`; a bad log entry as `logError`. -/
inductive ReadErr where
  | malformedHeader
  | unsupportedVersion
  | malformedMessage
  | logError
deriving DecidableEq, Repr

/-- `self._handle.seek(a)` followed by `self._handle.read(n)` on a file
modelled as a byte list. -/
def seekRead (file : List Nat) (a n : Nat) : List Nat :=
  (file.drop a).take n

/-- Require a header value at its point of use: using a missing
(`None`-valued) key crashes `read` in Python; the spec files this failure
as `MalformedHeader`. -/
def reqField (v : Option Nat) : Except ReadErr Nat :=
  match v with
  | some n => pure n
  | none => throw .malformedHeader

/-- The version-2 point-reading loop (source lines 245-250): consume one
buffer per entry of the header's `pointMessageSizes` table. -/
def readBySizes (stream : List Nat) : List Nat → List (List Nat)
  | [] => []
  | s :: ss => stream.take s :: readBySizes (stream.drop s) ss

/-- `IsisStore.read` (source lines 222-292), orchestration level.  The
external protobuf parsers are inputs: `parseNetHeader` parses the binary
network header (its `pointMessageSizes` table is what the version-2 path
consumes; the version-5 path parses it but discards the result), and
`parsePoint` parses one point buffer into its message.  Header fields are
demanded in the order the source uses them; an unrecognized version leaves
the row list undefined, a fatal error.  The version-5 framing failure
(stream too short for the declared lengths) is `malformedMessage`. -/
def IsisStore.read
    (parseNetHeader : List Nat → Except ReadErr NetHeaderSpec)
    (parsePoint : List Nat → Except ReadErr PointSpec)
    (hdr : PvlFields) (file : List Nat) : Except ReadErr (List Row) := do
  let specs ←
    match hdr.version with
    | some 2 => do
      let hsb ← reqField hdr.headerStartByte
      let hb ← reqField hdr.headerBytes
      let nh ← parseNetHeader (seekRead file hsb hb)
      let psb ← reqField hdr.pointsStartByte
      exceptMapList parsePoint (readBySizes (file.drop psb) nh.pointMessageSizes)
    | some 5 => do
      let hsb ← reqField hdr.headerStartByte
      let hb ← reqField hdr.headerBytes
      let _ ← parseNetHeader (seekRead file hsb hb)
      let psb ← reqField hdr.pointsStartByte
      let pb ← reqField hdr.pointsBytes
      match readPoints5 (file.drop psb) 0 pb with
      | some (bufs, _) => exceptMapList parsePoint bufs
      | none => throw .malformedMessage
    | _ => throw .unsupportedVersion
  match readOfSpecs specs with
  | .ok rows => pure rows
  | .error _ => throw .logError

/-- Number of missing-reference-index diagnostics in a warning list. -/
def countMissingRef (ws : List Warning) : Nat :=
  (ws.filter fun w =>
    match w with
    | .missingRefIndex _ => true
    | _ => false).length

/-- Shorthand for the propositional string order used in sortedness
statements. -/
def StrOrd (a b : String) : Prop := strLt a b = true

theorem charsLt_irrefl (l : List Char) : charsLt l l = false := by
  induction l with
  | nil => rfl
  | cons a as ih => simp [charsLt, ih]

theorem charsLt_trans : ∀ {a b c : List Char},
    charsLt a b = true → charsLt b c = true → charsLt a c = true := by
  intro a
  induction a with
  | nil =>
    intro b c hab hbc
    cases b with
    | nil => simp [charsLt] at hab
    | cons y ys =>
      cases c with
      | nil => simp [charsLt] at hbc
      | cons z zs => simp [charsLt]
  | cons x xs ih =>
    intro b c hab hbc
    cases b with
    | nil => simp [charsLt] at hab
    | cons y ys =>
      cases c with
      | nil => simp [charsLt] at hbc
      | cons z zs =>
        by_cases hxy : x.toNat < y.toNat
        · by_cases hyz : y.toNat < z.toNat
          · simp [charsLt, show x.toNat < z.toNat from by omega]
          · by_cases hzy : z.toNat < y.toNat
            · simp [charsLt, hyz, hzy] at hbc
            · simp [charsLt, show x.toNat < z.toNat from by omega]
        · by_cases hyx : y.toNat < x.toNat
          · simp [charsLt, hxy, hyx] at hab
          · by_cases hyz : y.toNat < z.toNat
            · simp [charsLt, show x.toNat < z.toNat from by omega]
            · by_cases hzy : z.toNat < y.toNat
              · simp [charsLt, hyz, hzy] at hbc
              · have h1 : ¬ x.toNat < z.toNat := by omega
                have h2 : ¬ z.toNat < x.toNat := by omega
                simp only [charsLt, hxy, hyx, hyz, hzy, if_neg, if_false] at hab hbc
                simp only [charsLt, h1, h2, if_neg, if_false]
                exact ih (by simpa using hab) (by simpa using hbc)

theorem charsLt_conn : ∀ {a b : List Char},
    charsLt a b = false → charsLt b a = false → a = b := by
  intro a
  induction a with
  | nil =>
    intro b hab _
    cases b with
    | nil => rfl
    | cons y ys => simp [charsLt] at hab
  | cons x xs ih =>
    intro b hab hba
    cases b with
    | nil => simp [charsLt] at hba
    | cons y ys =>
      by_cases hxy : x.toNat < y.toNat
      · simp [charsLt, hxy] at hab
      · by_cases hyx : y.toNat < x.toNat
        · simp [charsLt, hyx] at hba
        · have hn : x.toNat = y.toNat := by omega
          have hx : x = y := Char.eq_of_val_eq (UInt32.ext hn)
          simp only [charsLt, hxy, hyx, if_neg, if_false] at hab hba
          rw [hx, ih (by simpa using hab) (by simpa using hba)]

theorem strLt_irrefl (a : String) : strLt a a = false := charsLt_irrefl a.data

theorem strLt_trans {a b c : String} (hab : strLt a b = true)
    (hbc : strLt b c = true) : strLt a c = true := charsLt_trans hab hbc

theorem strLt_conn {a b : String} (hab : strLt a b = false)
    (hba : strLt b a = false) : a = b := by
  have hd : a.data = b.data := charsLt_conn hab hba
  cases a
  cases b
  exact congrArg String.mk hd

theorem mem_insertKey {a k : String} {l : List String} :
    a ∈ insertKey k l ↔ a = k ∨ a ∈ l := by
  induction l with
  | nil => simp [insertKey]
  | cons x xs ih =>
    by_cases hkx : k = x
    · subst hkx
      simp only [insertKey, if_pos rfl]
      constructor
      · intro h; exact Or.inr h
      · rintro (h | h)
        · simp [h]
        · exact h
    · simp only [insertKey, if_neg hkx]
      by_cases hlt : strLt k x = true
      · simp only [if_pos hlt]
        constructor
        · intro h
          rcases List.mem_cons.mp h with h | h
          · exact Or.inl h
          · exact Or.inr h
        · rintro (h | h)
          · simp [h]
          · simp [h]
      · simp only [if_neg hlt]
        constructor
        · intro h
          rcases List.mem_cons.mp h with h | h
          · exact Or.inr (by simp [h])
          · rcases ih.mp h with h | h
            · exact Or.inl h
            · exact Or.inr (by simp [h])
        · rintro (h | h)
          · exact List.mem_cons.mpr (Or.inr (ih.mpr (Or.inl h)))
          · rcases List.mem_cons.mp h with h | h
            · simp [h]
            · exact List.mem_cons.mpr (Or.inr (ih.mpr (Or.inr h)))

theorem sorted_insertKey {k : String} {l : List String}
    (h : List.Pairwise StrOrd l) :
    List.Pairwise StrOrd (insertKey k l) := by
  induction l with
  | nil => simp [insertKey, List.Pairwise]
  | cons x xs ih =>
    rcases List.pairwise_cons.mp h with ⟨hx, hxs⟩
    by_cases hkx : k = x
    · simpa [insertKey, hkx] using h
    · by_cases hlt : strLt k x = true
      · simp only [insertKey, if_neg hkx, if_pos hlt]
        refine List.pairwise_cons.mpr ⟨?_, h⟩
        intro y hy
        rcases List.mem_cons.mp hy with rfl | hy
        · exact hlt
        · exact strLt_trans hlt (hx y hy)
      · simp only [insertKey, if_neg hkx, if_neg hlt]
        refine List.pairwise_cons.mpr ⟨?_, ih hxs⟩
        intro y hy
        rcases mem_insertKey.mp hy with rfl | hy
        · -- strLt k x is false and k ≠ x, hence strLt x k
          rcases hxk : strLt x y with _ | _
          · exact absurd (strLt_conn (by simpa using hlt) hxk) hkx
          · exact hxk
        · exact hx y hy

theorem nodup_insertKey {k : String} {l : List String}
    (hs : List.Pairwise StrOrd l) (hd : l.Nodup) :
    (insertKey k l).Nodup := by
  induction l with
  | nil => simp [insertKey]
  | cons x xs ih =>
    rcases List.pairwise_cons.mp hs with ⟨hx, hxs⟩
    rcases List.nodup_cons.mp hd with ⟨hnx, hnxs⟩
    by_cases hkx : k = x
    · simpa [insertKey, hkx] using hd
    · by_cases hlt : strLt k x = true
      · simp only [insertKey, if_neg hkx, if_pos hlt]
        refine List.nodup_cons.mpr ⟨?_, hd⟩
        intro hk
        rcases List.mem_cons.mp hk with rfl | hk
        · simp [strLt_irrefl] at hlt
        · have := strLt_trans hlt (hx k hk)
          simp [strLt_irrefl] at this
      · simp only [insertKey, if_neg hkx, if_neg hlt]
        refine List.nodup_cons.mpr ⟨?_, ih hxs hnxs⟩
        intro hxmem
        rcases mem_insertKey.mp hxmem with rfl | hxmem
        · exact hkx rfl
        · exact hnx hxmem

theorem mem_sortedUniqueKeys {a : String} {l : List String} :
    a ∈ sortedUniqueKeys l ↔ a ∈ l := by
  induction l with
  | nil => simp [sortedUniqueKeys]
  | cons x xs ih =>
    simp only [sortedUniqueKeys, List.foldr_cons] at *
    rw [mem_insertKey, ih]
    simp

theorem sorted_sortedUniqueKeys (l : List String) :
    List.Pairwise StrOrd (sortedUniqueKeys l) := by
  induction l with
  | nil => simp [sortedUniqueKeys]
  | cons x xs ih =>
    simpa only [sortedUniqueKeys, List.foldr_cons] using sorted_insertKey ih

theorem nodup_sortedUniqueKeys (l : List String) :
    (sortedUniqueKeys l).Nodup := by
  induction l with
  | nil => simp [sortedUniqueKeys]
  | cons x xs ih =>
    simpa only [sortedUniqueKeys, List.foldr_cons] using
      nodup_insertKey (sorted_sortedUniqueKeys xs) ih

theorem pid_rowOf (p : Point) (m : Measure) : (rowOf p m).pid = p.pid := rfl

theorem pid_of_mem_flattenPoint {r : Row} {p : Point}
    (h : r ∈ flattenPoint p) : r.pid = p.pid := by
  rcases List.mem_map.mp h with ⟨m, _, rfl⟩
  rfl

theorem flatten_cons (p : Point) (pts : List Point) :
    flatten (p :: pts) = flattenPoint p ++ flatten pts := by
  simp [flatten]

theorem pid_of_mem_flatten {r : Row} {pts : List Point}
    (h : r ∈ flatten pts) : r.pid ∈ pts.map Point.pid := by
  induction pts with
  | nil => simp [flatten] at h
  | cons q qs ih =>
    rw [flatten_cons] at h
    rcases List.mem_append.mp h with h | h
    · simp [pid_of_mem_flattenPoint h]
    · simpa using Or.inr (ih h)

theorem mem_flatten_map_pid {pts : List Point}
    (hme : ∀ p ∈ pts, p.measures ≠ []) (a : String) :
    a ∈ (flatten pts).map Row.pid ↔ a ∈ pts.map Point.pid := by
  constructor
  · intro h
    rcases List.mem_map.mp h with ⟨r, hr, rfl⟩
    exact pid_of_mem_flatten hr
  · intro h
    rcases List.mem_map.mp h with ⟨p, hp, rfl⟩
    rcases List.exists_mem_of_ne_nil p.measures (hme p hp) with ⟨m, hm⟩
    refine List.mem_map.mpr ⟨rowOf p m, ?_, rfl⟩
    have : rowOf p m ∈ flattenPoint p := List.mem_map_of_mem (rowOf p) hm
    rcases List.mem_map.mp (List.mem_map_of_mem flattenPoint hp) with _
    exact List.mem_flatten.mpr ⟨flattenPoint p,
      List.mem_map_of_mem flattenPoint hp, this⟩

theorem filter_flattenPoint_self (p : Point) :
    (flattenPoint p).filter (fun r => r.pid == p.pid) = flattenPoint p := by
  apply List.filter_eq_self.mpr
  intro r hr
  simp [pid_of_mem_flattenPoint hr]

theorem filter_flattenPoint_ne {p q : Point} (h : q.pid ≠ p.pid) :
    (flattenPoint q).filter (fun r => r.pid == p.pid) = [] := by
  apply List.filter_eq_nil_iff.mpr
  intro r hr
  simp [pid_of_mem_flattenPoint hr, h]

theorem filter_flatten_eq {pts : List Point}
    (hnd : (pts.map Point.pid).Nodup) {p : Point} (hp : p ∈ pts) :
    (flatten pts).filter (fun r => r.pid == p.pid) = flattenPoint p := by
  induction pts with
  | nil => simp at hp
  | cons q qs ih =>
    rw [List.map_cons] at hnd
    rcases List.nodup_cons.mp hnd with ⟨hq, hqs⟩
    rw [flatten_cons, List.filter_append]
    rcases List.mem_cons.mp hp with rfl | hp
    · rw [filter_flattenPoint_self]
      have hnil : (flatten qs).filter (fun r => r.pid == p.pid) = [] := by
        apply List.filter_eq_nil_iff.mpr
        intro r hr
        have hmem := pid_of_mem_flatten hr
        simp only [beq_iff_eq]
        intro hcontra
        exact hq (hcontra ▸ hmem)
      rw [hnil, List.append_nil]
    · have hqp : q.pid ≠ p.pid := by
        intro hcontra
        exact hq (by rw [hcontra]; exact List.mem_map_of_mem Point.pid hp)
      rw [filter_flattenPoint_ne hqp, ih hqs hp, List.nil_append]

theorem groupby_map_fst (rows : List Row) :
    (groupby rows).map Prod.fst = sortedUniqueKeys (rows.map Row.pid) := by
  rw [groupby, List.map_map]
  simp [Function.comp_def]

/-- C3 (counterexample): the claim says `group(flatten(points))` reproduces
the original first-occurrence point-id order.  It does not: `create_points`
iterates `df.groupby('id')`, and pandas sorts group keys, so for the point
order `["b", "a"]` (each point with one measure) the groups come back in
sorted order `["a", "b"]`, not in first-occurrence order. -/
theorem group_flatten_order_cex :
    ((groupby (flatten
      [⟨"b", 0, 0, "", "", false, false, false, [], [],
         [⟨"s1", 0, "", "", false, false, false, 0, 0, 0, 0, 0, []⟩]⟩,
       ⟨"a", 0, 0, "", "", false, false, false, [], [],
         [⟨"s2", 0, "", "", false, false, false, 0, 0, 0, 0, 0, []⟩]⟩])).map
      Prod.fst) = ["a", "b"] ∧
    (([⟨"b", 0, 0, "", "", false, false, false, [], [],
         [⟨"s1", 0, "", "", false, false, false, 0, 0, 0, 0, 0, []⟩]⟩,
       ⟨"a", 0, 0, "", "", false, false, false, [], [],
         [⟨"s2", 0, "", "", false, false, false, 0, 0, 0, 0, 0, []⟩]⟩] :
       List Point).map Point.pid) = ["b", "a"] ∧
    (["a", "b"] : List String) ≠ ["b", "a"] := by
  refine ⟨by decide, by decide, by decide⟩

/-- C3 (amended): for any non-empty list of points with pairwise-distinct
ids, each having at least one measure, grouping the flattened rows by point
id yields exactly one group per point; the group keys are a permutation of
the original point ids, listed in ascending (sorted) id order — not in
first-occurrence order — and each point's group carries exactly that
point's flattened rows, preserving its measure order and every attribute
value. -/
theorem group_flatten_inverse_amended (pts : List Point)
    (hnd : (pts.map Point.pid).Nodup) (hne : pts ≠ [])
    (hme : ∀ p ∈ pts, p.measures ≠ []) :
    ((groupby (flatten pts)).map Prod.fst).Perm (pts.map Point.pid) ∧
    List.Pairwise StrOrd ((groupby (flatten pts)).map Prod.fst) ∧
    (∀ p ∈ pts, (p.pid, flattenPoint p) ∈ groupby (flatten pts)) ∧
    (groupby (flatten pts)).length = pts.length := by
  have hkeys := groupby_map_fst (flatten pts)
  have hperm : ((groupby (flatten pts)).map Prod.fst).Perm (pts.map Point.pid) := by
    rw [hkeys]
    refine (List.perm_ext_iff_of_nodup (nodup_sortedUniqueKeys _) hnd).mpr ?_
    intro a
    rw [mem_sortedUniqueKeys]
    exact mem_flatten_map_pid hme a
  refine ⟨hperm, ?_, ?_, ?_⟩
  · rw [hkeys]
    exact sorted_sortedUniqueKeys _
  · intro p hp
    have hkey : p.pid ∈ sortedUniqueKeys ((flatten pts).map Row.pid) := by
      rw [mem_sortedUniqueKeys]
      exact (mem_flatten_map_pid hme p.pid).mpr (List.mem_map_of_mem Point.pid hp)
    refine List.mem_map.mpr ⟨p.pid, hkey, ?_⟩
    rw [filter_flatten_eq hnd hp]
  · have h1 : ((groupby (flatten pts)).map Prod.fst).length =
        (pts.map Point.pid).length := hperm.length_eq
    simpa using h1

/-- C3 (witness): the amended theorem applied to the two-point instance of
the counterexample. -/
theorem group_flatten_inverse_amended_witness :
    ((groupby (flatten
      [⟨"b", 0, 0, "", "", false, false, false, [], [],
         [⟨"s1", 0, "", "", false, false, false, 0, 0, 0, 0, 0, []⟩]⟩,
       ⟨"a", 0, 0, "", "", false, false, false, [], [],
         [⟨"s2", 0, "", "", false, false, false, 0, 0, 0, 0, 0, []⟩]⟩])).map
      Prod.fst).Perm ["b", "a"] ∧
    (groupby (flatten
      [⟨"b", 0, 0, "", "", false, false, false, [], [],
         [⟨"s1", 0, "", "", false, false, false, 0, 0, 0, 0, 0, []⟩]⟩,
       ⟨"a", 0, 0, "", "", false, false, false, [], [],
         [⟨"s2", 0, "", "", false, false, false, 0, 0, 0, 0, 0, []⟩]⟩])).length
      = 2 ∧
    ("a", flattenPoint
        ⟨"a", 0, 0, "", "", false, false, false, [], [],
         [⟨"s2", 0, "", "", false, false, false, 0, 0, 0, 0, 0, []⟩]⟩) ∈
      groupby (flatten
      [⟨"b", 0, 0, "", "", false, false, false, [], [],
         [⟨"s1", 0, "", "", false, false, false, 0, 0, 0, 0, 0, []⟩]⟩,
       ⟨"a", 0, 0, "", "", false, false, false, [], [],
         [⟨"s2", 0, "", "", false, false, false, 0, 0, 0, 0, 0, []⟩]⟩]) := by
  have h := group_flatten_inverse_amended
    [⟨"b", 0, 0, "", "", false, false, false, [], [],
       [⟨"s1", 0, "", "", false, false, false, 0, 0, 0, 0, 0, []⟩]⟩,
     ⟨"a", 0, 0, "", "", false, false, false, [], [],
       [⟨"s2", 0, "", "", false, false, false, 0, 0, 0, 0, 0, []⟩]⟩]
    (by decide) (by decide) (by decide)
  exact ⟨h.1, h.2.2.2, h.2.2.1
    ⟨"a", 0, 0, "", "", false, false, false, [], [],
      [⟨"s2", 0, "", "", false, false, false, 0, 0, 0, 0, 0, []⟩]⟩
    (by decide)⟩

theorem unle32_le32 {n : Nat} (h : n < 4294967296) :
    unle32 (n % 256) (n / 256 % 256) (n / 65536 % 256) (n / 16777216 % 256) = n := by
  unfold unle32
  omega

theorem readPoints5_step (b0 b1 b2 b3 : Nat) (rest : List Nat) (c p : Nat)
    (hc : c < p) (hle : unle32 b0 b1 b2 b3 ≤ rest.length) :
    readPoints5 (b0 :: b1 :: b2 :: b3 :: rest) c p =
      match readPoints5 (rest.drop (unle32 b0 b1 b2 b3))
          (c + 4 + unle32 b0 b1 b2 b3) p with
      | some (bufs, final) =>
          some (rest.take (unle32 b0 b1 b2 b3) :: bufs, final)
      | none => none := by
  rw [readPoints5.eq_def]
  simp only [if_pos hc, if_pos hle]

theorem lengthPrefixedRegion_cons_length (b : List Nat) (bs : List (List Nat)) :
    (lengthPrefixedRegion (b :: bs)).length =
      4 + b.length + (lengthPrefixedRegion bs).length := by
  simp [lengthPrefixedRegion, le32]
  omega

theorem readPoints5_consumes (bufs : List (List Nat)) :
    ∀ (rest : List Nat) (c : Nat),
    (∀ b ∈ bufs, b.length < 4294967296) →
    readPoints5 (lengthPrefixedRegion bufs ++ rest) c
        (c + (lengthPrefixedRegion bufs).length) =
      some (bufs, c + (lengthPrefixedRegion bufs).length) := by
  induction bufs with
  | nil =>
    intro rest c _
    have h0 : lengthPrefixedRegion [] = [] := by simp [lengthPrefixedRegion]
    rw [h0]
    simp only [List.nil_append, List.length_nil, Nat.add_zero]
    rw [readPoints5.eq_def]
    simp
  | cons b bs ih =>
    intro rest c hlen
    have hb := hlen b (List.mem_cons_self b bs)
    have hbs : ∀ x ∈ bs, x.length < 4294967296 := fun x hx =>
      hlen x (List.mem_cons.mpr (Or.inr hx))
    set P := c + (lengthPrefixedRegion (b :: bs)).length with hP
    have hstream : lengthPrefixedRegion (b :: bs) ++ rest =
        (b.length % 256) :: (b.length / 256 % 256) :: (b.length / 65536 % 256) ::
          (b.length / 16777216 % 256) :: (b ++ (lengthPrefixedRegion bs ++ rest)) := by
      simp [lengthPrefixedRegion, le32]
    rw [hstream]
    have hc : c < P := by
      rw [hP, lengthPrefixedRegion_cons_length]
      omega
    have hu : unle32 (b.length % 256) (b.length / 256 % 256)
        (b.length / 65536 % 256) (b.length / 16777216 % 256) = b.length :=
      unle32_le32 hb
    have hle : unle32 (b.length % 256) (b.length / 256 % 256)
        (b.length / 65536 % 256) (b.length / 16777216 % 256) ≤
        (b ++ (lengthPrefixedRegion bs ++ rest)).length := by
      rw [hu]
      simp
    rw [readPoints5_step _ _ _ _ _ _ _ hc hle, hu]
    rw [List.drop_left, List.take_left]
    have hP2 : P = (c + 4 + b.length) + (lengthPrefixedRegion bs).length := by
      rw [hP, lengthPrefixedRegion_cons_length]
      omega
    rw [hP2, ih rest (c + 4 + b.length) hbs]

/-- C7: reading a length-prefixed (version 5) points region whose total
size is the `PointsBytes` value declared in the text header recovers
exactly the framed point buffers — each delimited by its own 4-byte
little-endian length field — and stops with the cumulative byte count
(length fields plus payloads) equal to `PointsBytes` exactly, leaving any
trailing file bytes untouched. -/
theorem read_length_prefixed_exact (bufs : List (List Nat)) (rest : List Nat)
    (hlen : ∀ b ∈ bufs, b.length < 4294967296) :
    readPoints5 (lengthPrefixedRegion bufs ++ rest) 0
        (lengthPrefixedRegion bufs).length =
      some (bufs, (lengthPrefixedRegion bufs).length) := by
  have h := readPoints5_consumes bufs rest 0 hlen
  simpa using h

/-- C7 (witness): the reader applied to a concrete two-point region with a
trailing byte. -/
theorem read_length_prefixed_exact_witness :
    readPoints5 (lengthPrefixedRegion [[7], [8, 9]] ++ [5]) 0
        (lengthPrefixedRegion [[7], [8, 9]]).length =
      some ([[7], [8, 9]], (lengthPrefixedRegion [[7], [8, 9]]).length) ∧
    (lengthPrefixedRegion [[7], [8, 9]]).length = 11 := by
  exact ⟨read_length_prefixed_exact [[7], [8, 9]] [5] (by decide), by decide⟩

theorem pointWrites_map_snd (off : Nat) (msgs : List (List Nat)) :
    (pointWrites off msgs).map Prod.snd = msgs := by
  induction msgs generalizing off with
  | nil => rfl
  | cons m ms ih => simp [pointWrites, ih]

theorem pointWrites_offset_ge (off : Nat) (msgs : List (List Nat)) :
    ∀ w ∈ pointWrites off msgs, off ≤ w.1 := by
  induction msgs generalizing off with
  | nil => simp [pointWrites]
  | cons m ms ih =>
    intro w hw
    rcases List.mem_cons.mp hw with rfl | hw
    · exact Nat.le_refl _
    · have := ih (off + m.length) w hw
      omega

/-- C2 (counterexample): the claim says a write with schema version 5
emits, for each point, a 4-byte little-endian length field followed by the
buffer.  `to_isis` never does: the write sequence is independent of the
requested version, and for the single point buffer `[7]` the point write
carries the bare buffer `[7]`, not the length-prefixed `[1, 0, 0, 0, 7]`. -/
theorem points_region_not_length_prefixed_cex :
    toIsisWrites [9] [[7]] [3] =
      [(HEADERSTARTBYTE, [9]), (HEADERSTARTBYTE + 1, [7]), (0, [3])] ∧
    ((pointWrites (HEADERSTARTBYTE + 1) [[7]]).map Prod.snd).flatten = [7] ∧
    lengthPrefixedRegion [[7]] = [1, 0, 0, 0, 7] ∧
    ([7] : List Nat) ≠ [1, 0, 0, 0, 7] := by
  exact ⟨by decide, by decide, by decide, by decide⟩

/-- C2 (amended): for every write — whatever schema version is requested,
including 5 — the points region emitted by `to_isis` is the plain
concatenation of the point buffers with no per-point length field; the
point sizes are instead recorded in the version-2 binary header's
`pointMessageSizes` table.  Only the read path implements length-prefixed
framing. -/
theorem points_region_concat_amended (bufferHeader pvl : List Nat)
    (msgs : List (List Nat)) (n t d u cd md : String) :
    ((pointWrites (HEADERSTARTBYTE + bufferHeader.length) msgs).map
        Prod.snd).flatten = msgs.flatten ∧
    toIsisWrites bufferHeader msgs pvl =
      (HEADERSTARTBYTE, bufferHeader) ::
        (pointWrites (HEADERSTARTBYTE + bufferHeader.length) msgs ++
          [(0, pvl)]) ∧
    (create_buffer_header n t d u (msgs.map List.length) cd
        md).pointMessageSizes = msgs.map List.length := by
  exact ⟨by rw [pointWrites_map_snd], rfl, rfl⟩

/-- C5 (counterexample): the claim says the text metadata header is placed
after the points region, at byte offsets beyond the end of the last point
buffer.  It is not: the final `store.write(header.encode('utf-8'))` uses
`write`'s default `offset=0`, so the text header lands at the start of the
file, while the single point buffer here occupies bytes 65537..65538. -/
theorem text_header_offset_cex :
    (toIsisWrites [9] [[7]] [3]).getLast? = some (0, [3]) ∧
    pointWrites (HEADERSTARTBYTE + 1) [[7]] = [(65537, [7])] ∧
    ¬ (65537 + 1 ≤ 0) := by
  exact ⟨by decide, by decide, by decide⟩

/-- C5 (amended): the text header is emitted last — it is the final write,
after the binary header and every point buffer, so it can record the byte
offsets and sizes computed for everything before it — but it is placed at
byte offset 0, the start of the file, before the binary-header region;
every other write sits at offset `HEADERSTARTBYTE` or beyond. -/
theorem text_header_written_last_amended (bufferHeader pvl : List Nat)
    (msgs : List (List Nat)) :
    (toIsisWrites bufferHeader msgs pvl).getLast? = some (0, pvl) ∧
    ∀ w ∈ (toIsisWrites bufferHeader msgs pvl).dropLast,
      HEADERSTARTBYTE ≤ w.1 := by
  constructor
  · rw [toIsisWrites, ← List.cons_append, List.getLast?_concat]
  · intro w hw
    rw [toIsisWrites, ← List.cons_append, List.dropLast_concat] at hw
    rcases List.mem_cons.mp hw with rfl | hw
    · exact Nat.le_refl _
    · have := pointWrites_offset_ge (HEADERSTARTBYTE + bufferHeader.length)
        msgs w hw
      omega

/-- C5 (witness): the amended theorem at a concrete write: the last write
is the text header at offset 0, and the point write at offset 65537 is at
or beyond `HEADERSTARTBYTE`. -/
theorem text_header_written_last_amended_witness :
    (toIsisWrites [9] [[7]] [3]).getLast? = some (0, [3]) ∧
    HEADERSTARTBYTE ≤ 65537 := by
  refine ⟨(text_header_written_last_amended [9] [3] [[7]]).1, ?_⟩
  have h := (text_header_written_last_amended [9] [3] [[7]]).2
    (65537, [7]) (by decide)
  exact h

/-- C6 (counterexample): the claim says a write configured with header
start offset `h` writes the binary header at `h` and records
`PointsStartByte = h + HeaderBytes`.  With `h = 0` and a 1-byte binary
header, the header write still happens at the module constant 65536 and
the recorded `PointsStartByte` is `65536 + 1 = 65537`, not `0 + 1`. -/
theorem header_offset_cex :
    (toIsisWrites [9] [[7]] [3]).head? = some (HEADERSTARTBYTE, [9]) ∧
    (create_pvl_header 2 0 "n" "t" "d" "u" 1 1 "c" "m" 1 1).headerStartByte
      = 0 ∧
    (create_pvl_header 2 0 "n" "t" "d" "u" 1 1 "c" "m" 1 1).pointsStartByte
      = 65537 ∧
    HEADERSTARTBYTE ≠ 0 ∧ (65537 : Nat) ≠ 0 + 1 := by
  exact ⟨rfl, rfl, by decide, by decide, by decide⟩

/-- C6 (amended): the binary network header is always written at the fixed
module constant `HEADERSTARTBYTE = 65536`, regardless of the configured
header start offset `h`, which is only recorded verbatim as
`HeaderStartByte` in the text header; the recorded `PointsStartByte`
equals `HEADERSTARTBYTE` plus the recorded `HeaderBytes`, so the claim's
equality holds exactly when `h = 65536`. -/
theorem header_offset_fixed_amended (v h : Nat)
    (n t d u cd md : String) (bhs pb np nm : Nat)
    (bufferHeader pvl : List Nat) (msgs : List (List Nat)) :
    (toIsisWrites bufferHeader msgs pvl).head? =
      some (HEADERSTARTBYTE, bufferHeader) ∧
    (create_pvl_header v h n t d u bhs pb cd md np nm).headerStartByte = h ∧
    (create_pvl_header v h n t d u bhs pb cd md np nm).headerBytes = bhs ∧
    (create_pvl_header v h n t d u bhs pb cd md np nm).pointsStartByte =
      HEADERSTARTBYTE + bhs :=
  ⟨rfl, rfl, rfl, rfl⟩

theorem ofVal_isSome_iff (n : Int) :
    (MeasureMessageType.ofVal n).isSome ↔ (2 ≤ n ∧ n ≤ 7) := by
  unfold MeasureMessageType.ofVal
  split_ifs <;> simp <;> omega

theorem ofName_isSome_iff (s : String) :
    (MeasureMessageType.ofName s).isSome ↔
      s ∈ ["GoodnessOfFit", "MinimumPixelZScore", "MaximumPixelZScore",
           "PixelShift", "WholePixelCorrelation", "SubPixelCorrelation"] := by
  unfold MeasureMessageType.ofName
  split_ifs <;> simp_all

/-- C9: `MeasureLog` construction from an integer type code succeeds
exactly for the codes 2..7 of the closed enumeration (code 2 with value
3.5 gives a GoodnessOfFit log carrying 3.5; code 99 fails with the
by-value lookup error); construction by name succeeds exactly for the six
member names (with "PixelShift" giving PixelShift); and any construction
with a non-numeric value fails. -/
theorem measurelog_construction :
    MeasureLog.make (.inl 2) (.pfloat (7/2)) =
      .ok ⟨.GoodnessOfFit, .pfloat (7/2)⟩ ∧
    MeasureLog.make (.inl 99) (.pint 0) = .error .valueError ∧
    (∀ (n : Int) (v : PyVal), v.isNumeric = true →
      ((∃ lg, MeasureLog.make (.inl n) v = .ok lg) ↔ 2 ≤ n ∧ n ≤ 7)) ∧
    MeasureLog.make (.inr "PixelShift") (.pint 1) =
      .ok ⟨.PixelShift, .pint 1⟩ ∧
    (∀ (s : String) (v : PyVal), v.isNumeric = true →
      ((∃ lg, MeasureLog.make (.inr s) v = .ok lg) ↔
        s ∈ ["GoodnessOfFit", "MinimumPixelZScore", "MaximumPixelZScore",
             "PixelShift", "WholePixelCorrelation", "SubPixelCorrelation"])) ∧
    (∀ (mt : Int ⊕ String) (v : PyVal), v.isNumeric = false →
      ∀ lg, MeasureLog.make mt v ≠ .ok lg) := by
  refine ⟨rfl, rfl, ?_, rfl, ?_, ?_⟩
  · intro n v hv
    cases h : MeasureMessageType.ofVal n with
    | none =>
      have hr : ¬(2 ≤ n ∧ n ≤ 7) := by
        intro hc
        have := (ofVal_isSome_iff n).mpr hc
        simp [h] at this
      simp [MeasureLog.make, h, hr, Bind.bind, Except.bind, throw, throwThe,
        MonadExceptOf.throw, pure, Except.pure]
    | some mt =>
      have hr : 2 ≤ n ∧ n ≤ 7 := (ofVal_isSome_iff n).mp (by simp [h])
      simp [MeasureLog.make, h, hv, hr, Bind.bind, Except.bind, throw,
        throwThe, MonadExceptOf.throw, pure, Except.pure]
  · intro s v hv
    cases h : MeasureMessageType.ofName s with
    | none =>
      have hr := (ofName_isSome_iff s).not.mp (by simp [h])
      simp only [MeasureLog.make, h] at *
      constructor
      · intro hex
        exfalso
        rcases hex with ⟨lg, hlg⟩
        simp [Bind.bind, Except.bind, throw, throwThe,
          MonadExceptOf.throw] at hlg
      · intro hmem
        exact absurd hmem hr
    | some mt =>
      have hr := (ofName_isSome_iff s).mp (by simp [h])
      simp [MeasureLog.make, h, hv, hr, Bind.bind, Except.bind, throw,
        throwThe, MonadExceptOf.throw, pure, Except.pure]
  · intro mt v hv lg
    cases mt with
    | inl n =>
      cases h : MeasureMessageType.ofVal n <;>
        simp [MeasureLog.make, h, hv, Bind.bind, Except.bind, throw,
          throwThe, MonadExceptOf.throw, pure, Except.pure]
    | inr s =>
      cases h : MeasureMessageType.ofName s <;>
        simp [MeasureLog.make, h, hv, Bind.bind, Except.bind, throw,
          throwThe, MonadExceptOf.throw, pure, Except.pure]

/-- C9 (witness): the construction predicates at concrete inputs: code 5
with an int value succeeds, the name "Unknown" fails, and a string value
is rejected. -/
theorem measurelog_construction_witness :
    (∃ lg, MeasureLog.make (.inl 5) (.pint 1) = .ok lg) ∧
    ¬ (∃ lg, MeasureLog.make (.inr "Unknown") (.pfloat 1) = .ok lg) ∧
    MeasureLog.make (.inl 2) (.pstr "x") ≠
      .ok ⟨.GoodnessOfFit, .pstr "x"⟩ := by
  refine ⟨?_, ?_, ?_⟩
  · exact (measurelog_construction.2.2.1 5 (.pint 1) rfl).mpr (by omega)
  · intro hex
    have := (measurelog_construction.2.2.2.2.1 "Unknown" (.pfloat 1)
      rfl).mp hex
    simp at this
  · exact measurelog_construction.2.2.2.2.2 (.inl 2) (.pstr "x") rfl _

/-- C10: for any frame whose column set is consistent (an `apriorisample`
column is accompanied by an `aprioriline` column, so the write path does
not crash reading an absent column at source line 392), a point group
lacking the `referenceIndex` column encodes with `referenceIndex = 0` and
emits exactly one missing-reference diagnostic for that point; a group
that supplies it encodes the value unchanged with no such diagnostic; and
processing continues either way — `create_points` still emits one point
message per group. -/
theorem reference_index_default (cols : Cols) (pre suf : Option String)
    (k : String) (r0 : Row) (rs : List Row) (rows : List Row)
    (hap : cols.aprioriSampleCol = true → cols.aprioriLineCol = true) :
    (encodePoint cols pre suf k (r0 :: rs)).1.referenceIndex =
      some (if cols.referenceIndexCol then r0.referenceIndex else 0) ∧
    countMissingRef (encodePoint cols pre suf k (r0 :: rs)).2 =
      (if cols.referenceIndexCol then 0 else 1) ∧
    (create_points cols pre suf rows).1.length = (groupby rows).length := by
  refine ⟨?_, ?_, ?_⟩
  · cases hrc : cols.referenceIndexCol <;> simp [encodePoint, hrc]
  · cases hrc : cols.referenceIndexCol <;>
      cases hpl : cols.pointLogCol <;>
      simp [encodePoint, countMissingRef, hrc, hpl, List.filter]
  · simp [create_points]

/-- C10 (witness): the defaulting behaviour at a concrete consistent
frame: with every column present the supplied index 0 passes through with
no missing-reference diagnostic; with the `referenceIndex` column removed
the encoded index defaults to 0 with exactly one diagnostic, and
`create_points` still emits the group's message. -/
theorem reference_index_default_witness :
    (encodePoint allCols none none "p"
      [⟨"p", 2, 0, "c", "d", false, false, false, [], [], "s", 1, "mc",
        "md", false, false, false, 1, 1, 0, 0, 0, []⟩]).1.referenceIndex =
      some 0 ∧
    countMissingRef (encodePoint allCols none none "p"
      [⟨"p", 2, 0, "c", "d", false, false, false, [], [], "s", 1, "mc",
        "md", false, false, false, 1, 1, 0, 0, 0, []⟩]).2 = 0 ∧
    (encodePoint { allCols with referenceIndexCol := false } none none "p"
      [⟨"p", 2, 0, "c", "d", false, false, false, [], [], "s", 1, "mc",
        "md", false, false, false, 1, 1, 0, 0, 0, []⟩]).1.referenceIndex =
      some 0 ∧
    countMissingRef (encodePoint { allCols with referenceIndexCol := false }
      none none "p"
      [⟨"p", 2, 0, "c", "d", false, false, false, [], [], "s", 1, "mc",
        "md", false, false, false, 1, 1, 0, 0, 0, []⟩]).2 = 1 ∧
    (create_points { allCols with referenceIndexCol := false } none none
      [⟨"p", 2, 0, "c", "d", false, false, false, [], [], "s", 1, "mc",
        "md", false, false, false, 1, 1, 0, 0, 0, []⟩]).1.length =
      (groupby
        [⟨"p", 2, 0, "c", "d", false, false, false, [], [], "s", 1, "mc",
          "md", false, false, false, 1, 1, 0, 0, 0, []⟩]).length := by
  have h1 := reference_index_default allCols none none "p"
    ⟨"p", 2, 0, "c", "d", false, false, false, [], [], "s", 1, "mc",
      "md", false, false, false, 1, 1, 0, 0, 0, []⟩ []
    [⟨"p", 2, 0, "c", "d", false, false, false, [], [], "s", 1, "mc",
      "md", false, false, false, 1, 1, 0, 0, 0, []⟩] (by decide)
  have h2 := reference_index_default { allCols with referenceIndexCol := false }
    none none "p"
    ⟨"p", 2, 0, "c", "d", false, false, false, [], [], "s", 1, "mc",
      "md", false, false, false, 1, 1, 0, 0, 0, []⟩ []
    [⟨"p", 2, 0, "c", "d", false, false, false, [], [], "s", 1, "mc",
      "md", false, false, false, 1, 1, 0, 0, 0, []⟩] (by decide)
  refine ⟨by simpa using h1.1, by simpa using h1.2.1,
    by simpa using h2.1, by simpa using h2.2.1, h2.2.2⟩

/-- C8: a text header lacking `PointsStartByte` makes `read` fail with the
malformed-header error, whichever supported version is declared, for every
file content and every point parser — so the failure happens before any
point decoding and independently of the points region's bytes. -/
theorem missing_pointsstartbyte_aborts
    (parseNetHeader : List Nat → Except ReadErr NetHeaderSpec)
    (parsePoint : List Nat → Except ReadErr PointSpec)
    (hdr : PvlFields) (file : List Nat) (a b : Nat) (nh : NetHeaderSpec)
    (hpsb : hdr.pointsStartByte = none)
    (hv : hdr.version = some 2 ∨ hdr.version = some 5)
    (ha : hdr.headerStartByte = some a) (hb : hdr.headerBytes = some b)
    (hph : parseNetHeader (seekRead file a b) = .ok nh) :
    IsisStore.read parseNetHeader parsePoint hdr file =
      .error .malformedHeader := by
  rcases hv with hv | hv <;>
    simp [IsisStore.read, hv, ha, hb, hpsb, hph, reqField, Bind.bind,
      Except.bind, throw, throwThe, MonadExceptOf.throw, pure, Except.pure]

/-- C8 (witness): a concrete version-5 header with no `PointsStartByte`,
an empty file and a point parser that always fails: `read` reports the
malformed header. -/
theorem missing_pointsstartbyte_aborts_witness :
    IsisStore.read (fun _ => .ok ⟨"", "", "", "", "", "", []⟩)
      (fun _ => .error .malformedMessage)
      ⟨some 0, some 0, none, some 0, some 5⟩ [] =
      .error .malformedHeader := by
  exact missing_pointsstartbyte_aborts _ _ _ _ 0 0 ⟨"", "", "", "", "", "", []⟩
    rfl (Or.inr rfl) rfl rfl rfl

theorem from_to_protobuf (lg : MeasureLog) :
    MeasureLog.from_protobuf lg.to_protobuf =
      .ok ⟨lg.messagetype, .pfloat lg.value.toQ⟩ := by
  cases lg with
  | mk mt v =>
    cases mt <;>
      simp [MeasureLog.from_protobuf, MeasureLog.to_protobuf,
        MeasureLog.make, MeasureMessageType.ofVal, MeasureMessageType.val,
        PyVal.isNumeric, Bind.bind, Except.bind, pure, Except.pure]

theorem exceptMapList_from_to_protobuf (logs : List MeasureLog) :
    exceptMapList MeasureLog.from_protobuf
        (logs.map MeasureLog.to_protobuf) =
      .ok (logs.map fun lg => ⟨lg.messagetype, .pfloat lg.value.toQ⟩) := by
  induction logs with
  | nil => rfl
  | cons lg ls ih =>
    simp [exceptMapList, from_to_protobuf lg, ih, Bind.bind, Except.bind,
      pure, Except.pure]

/-- C4: the pixel-origin conversion is applied exactly once per direction
and only to the line/sample and a-priori line/sample pairs: encoding adds
0.5 to exactly those four fields and leaves every other numeric field
unchanged; the read-side adjustment subtracts 0.5 from exactly those four
columns and nothing else; a measure written with sample 10 and line 20 is
stored as 10.5 and 20.5; and reading back an encoded frame returns the
original coordinates. -/
theorem coordinate_offset_roundtrip :
    (∀ m : Row,
      (encodeMeasure allCols m).sample = some (m.sample + 1/2) ∧
      (encodeMeasure allCols m).line = some (m.line + 1/2) ∧
      (encodeMeasure allCols m).apriorisample =
        some (m.apriorisample + 1/2) ∧
      (encodeMeasure allCols m).aprioriline = some (m.aprioriline + 1/2) ∧
      (encodeMeasure allCols m).samplesigma = some m.samplesigma ∧
      (encodeMeasure allCols m).measureType = some m.measureType) ∧
    (∀ r : Row,
      (adjustRow r).sample = r.sample - 1/2 ∧
      (adjustRow r).line = r.line - 1/2 ∧
      (adjustRow r).apriorisample = r.apriorisample - 1/2 ∧
      (adjustRow r).aprioriline = r.aprioriline - 1/2 ∧
      (adjustRow r).samplesigma = r.samplesigma ∧
      (adjustRow r).measureType = r.measureType ∧
      (adjustRow r).serialnumber = r.serialnumber ∧
      (adjustRow r).measureLog = r.measureLog) ∧
    ((encodeMeasure allCols ⟨"p", 2, 0, "c", "d", false, false, false, [],
        [], "s", 1, "mc", "md", false, false, false, 10, 20, 1, 2, 3,
        []⟩).sample = some (21/2) ∧
     (encodeMeasure allCols ⟨"p", 2, 0, "c", "d", false, false, false, [],
        [], "s", 1, "mc", "md", false, false, false, 10, 20, 1, 2, 3,
        []⟩).line = some (41/2)) ∧
    (∀ m : Row,
      (readOfSpecs (create_points allCols none none [m]).1).map
          (List.map Row.sample) = .ok [m.sample] ∧
      (readOfSpecs (create_points allCols none none [m]).1).map
          (List.map Row.line) = .ok [m.line] ∧
      (readOfSpecs (create_points allCols none none [m]).1).map
          (List.map Row.apriorisample) = .ok [m.apriorisample] ∧
      (readOfSpecs (create_points allCols none none [m]).1).map
          (List.map Row.aprioriline) = .ok [m.aprioriline] ∧
      (readOfSpecs (create_points allCols none none [m]).1).map
          (List.map Row.samplesigma) = .ok [m.samplesigma]) := by
  refine ⟨?_, ?_, ?_, ?_⟩
  · intro m
    refine ⟨?_, ?_, ?_, ?_, ?_, ?_⟩ <;> simp [encodeMeasure, allCols]
  · intro r
    refine ⟨rfl, rfl, rfl, rfl, rfl, rfl, rfl, rfl⟩
  · constructor <;> (simp [encodeMeasure, allCols]; norm_num)
  · intro m
    have hcp : (create_points allCols none none [m]).1 =
        [(encodePoint allCols none none m.pid [m]).1] := by
      simp [create_points, groupby, sortedUniqueKeys, insertKey]
    rw [hcp]
    simp [readOfSpecs, decodeRows, decodeMeasureRow, exceptMapList,
      encodePoint, encodeMeasure, allCols, exceptMapList_from_to_protobuf,
      adjustRow, Except.map, Bind.bind, Except.bind, pure, Except.pure]

/-- C1 (code bug): the encode/decode round trip does not return the
covariance sequences to their own fields.  In `create_points`, both the
`aprioriCovar` and the `adjustedCovar` branch extend
`point_spec.aprioriCovar` (source line 364), so a point with
`aprioriCovar = []` and `adjustedCovar = [1.0]` encodes with
`aprioriCovar = [1.0]` and `adjustedCovar = []`, and decoding returns the
swapped values: `adjustedCovar` comes back empty instead of `[1.0]`.
Every other attribute of this frame round-trips exactly (the decoded row
below differs from the input row only in the two covariance fields). -/
theorem covar_roundtrip_bug :
    (create_points allCols none none
      [⟨"p", 2, 0, "c", "d", false, false, false, [], [1], "s", 1, "mc",
        "md", false, false, false, 1, 1, 0, 0, 0, []⟩]).1.map
        PointSpec.aprioriCovar = [[1]] ∧
    (create_points allCols none none
      [⟨"p", 2, 0, "c", "d", false, false, false, [], [1], "s", 1, "mc",
        "md", false, false, false, 1, 1, 0, 0, 0, []⟩]).1.map
        PointSpec.adjustedCovar = [[]] ∧
    readOfSpecs (create_points allCols none none
      [⟨"p", 2, 0, "c", "d", false, false, false, [], [1], "s", 1, "mc",
        "md", false, false, false, 1, 1, 0, 0, 0, []⟩]).1 =
      .ok [⟨"p", 2, 0, "c", "d", false, false, false, [1], [], "s", 1, "mc",
        "md", false, false, false, 1, 1, 0, 0, 0, []⟩] ∧
    (⟨"p", 2, 0, "c", "d", false, false, false, [], [1], "s", 1, "mc",
        "md", false, false, false, 1, 1, 0, 0, 0, []⟩ : Row).adjustedCovar
      = [1] ∧
    ([1] : List Rat) ≠ [] := by
  refine ⟨?_, ?_, ?_, rfl, by simp⟩
  · simp [create_points, groupby, sortedUniqueKeys, insertKey,
      encodePoint, allCols]
  · simp [create_points, groupby, sortedUniqueKeys, insertKey,
      encodePoint, allCols]
  · simp [create_points, groupby, sortedUniqueKeys, insertKey,
      readOfSpecs, decodeRows, decodeMeasureRow, exceptMapList,
      encodePoint, encodeMeasure, allCols, adjustRow, Except.map,
      Bind.bind, Except.bind, pure, Except.pure]
